import Mathlib

/-!
Verification development for the NXTensor extraction engine.

The definitions below are a shallow embedding of the Python sources:
  * nxtensor/core/xarray_channel_extraction.py (temporal block partitioner,
    cross-label block merger, parallel extraction dispatcher, block-to-dict
    conversion), and
  * src/time_series.py (square-region bound computation and the
    computed-variable extraction visitor).

Pandas dataframes are modelled column-major (a list of labelled columns of
rational values plus the mutable index name); Python dictionaries are
modelled as association lists looked up by first match; functions that can
raise are modelled in Except.  Modules of the repository that are imported
but whose files are not part of the source tree (time_utils, db_utils,
coordinate_utils, xarray_utils, file_utils, the variable module) are
modelled from the specification where needed; each such definition carries
a doc comment saying so.
-/

/-- Time resolution enumeration from nxtensor.utils.time_utils, as used by
xarray_channel_extraction.py: the four granularities year, month, day, hour
plus the two-digit string renderings MONTH2D, DAY2D and HOUR2D that
convert_block_to_dict adds to records. -/
inductive TimeResolution where
  | year
  | month
  | day
  | hour
  | month2d
  | day2d
  | hour2d
deriving DecidableEq, Repr

/-- Modelled from the spec: TimeResolution.KEYS lives in
nxtensor.utils.time_utils which is not under src.  Section 4.1 of the spec
fixes the ordered time-field list as year; year,month; year,month,day;
year,month,day,hour, so KEYS is the ordered list of the four supported
granularities. -/
def TimeResolution.KEYS : List TimeResolution :=
  [TimeResolution.year, TimeResolution.month, TimeResolution.day, TimeResolution.hour]

/-- Python rendering of a TimeResolution member, used when the partitioner
formats its configuration-error message. -/
def TimeResolution.pyName : TimeResolution → String
  | .year => "TimeResolution.YEAR"
  | .month => "TimeResolution.MONTH"
  | .day => "TimeResolution.DAY"
  | .hour => "TimeResolution.HOUR"
  | .month2d => "TimeResolution.MONTH2D"
  | .day2d => "TimeResolution.DAY2D"
  | .hour2d => "TimeResolution.HOUR2D"

/-- Coordinate enumeration (latitude and longitude keys of the metadata
mapping). -/
inductive Coordinate where
  | lat
  | lon
deriving DecidableEq, Repr

/-- Canonical metadata keys: the six keys of a db_metadata_mapping built by
create_db_metadata_mapping(year, month, day, hour, lat, lon). -/
inductive MetadataKey where
  | year
  | month
  | day
  | hour
  | lat
  | lon
deriving DecidableEq, Repr

/-- Modelled from the spec: db_utils.create_db_metadata_mapping is not under
src; its keyword signature (year, month, day, hour, lat, lon), visible in the
unit test of xarray_channel_extraction.py, fixes the key order of the
mapping. -/
def MetadataKey.ordered : List MetadataKey :=
  [MetadataKey.year, MetadataKey.month, MetadataKey.day, MetadataKey.hour,
   MetadataKey.lat, MetadataKey.lon]

/-- Column labels of a dataframe: either a raw string name (the columns of a
caller-supplied table) or one of the canonical enum labels that renaming
installs (TimeResolution members for time fields, Coordinate members for lat
and lon). -/
inductive ColLabel where
  | raw (s : String)
  | timeKey (t : TimeResolution)
  | coord (c : Coordinate)
deriving DecidableEq, Repr

/-- Canonical column label installed for a metadata key by the renaming step
of the partitioner. -/
def canonicalLabel : MetadataKey → ColLabel
  | .year => .timeKey .year
  | .month => .timeKey .month
  | .day => .timeKey .day
  | .hour => .timeKey .hour
  | .lat => .coord .lat
  | .lon => .coord .lon

/-- A db_metadata_mapping: canonical metadata key to the actual column name
of the table. -/
abbrev DBMetadataMapping := MetadataKey → String

/-- Column-major model of a pandas dataframe: labelled columns of rational
cell values plus the mutable name of the row index.  Row labels coincide
with positions, which matches tables read with a default RangeIndex. -/
structure PDataFrame where
  cols : List (ColLabel × List ℚ)
  indexName : Option String := none
deriving DecidableEq, Repr

/-- Number of rows of a dataframe (length of its first column). -/
def PDataFrame.nRows (df : PDataFrame) : Nat :=
  ((df.cols.head?).map (fun c => c.2.length)).getD 0

/-- First column carrying the given label, if any. -/
def PDataFrame.getCol (df : PDataFrame) (l : ColLabel) : Option (List ℚ) :=
  (df.cols.find? (fun c => decide (c.1 = l))).map (fun c => c.2)

/-- Cell at row i of the column labelled l, if both exist. -/
def PDataFrame.cell (df : PDataFrame) (l : ColLabel) (i : Nat) : Option ℚ :=
  (df.getCol l).bind (fun col => col.get? i)

/-- Reverse renaming of one column label, as in the partitioner: the dict
comprehension reversing db_metadata_mapping keeps, for each column name, the
last canonical key mapped to it, and pandas rename leaves unmatched labels
unchanged. -/
def renameCol (m : DBMetadataMapping) (c : ColLabel) : ColLabel :=
  match MetadataKey.ordered.reverse.find? (fun k => decide (ColLabel.raw (m k) = c)) with
  | some k => canonicalLabel k
  | none => c

/-- Renaming of a dataframe with the reversed metadata mapping (columns get
canonical labels; the index name is untouched by rename itself). -/
def PDataFrame.rename (df : PDataFrame) (m : DBMetadataMapping) : PDataFrame :=
  ⟨df.cols.map (fun c => (renameCol m c.1, c.2)), df.indexName⟩

/-- The name given to the row index of the renamed dataframe. -/
def INDEX_NAME : String := "index"

/-- A period key: the tuple of grouping-column values of one row (a missing
column or row yields none; the partitioner is only used with mappings whose
columns are present). -/
abbrev PeriodKey := List (Option ℚ)

/-- The canonical time keys at or above granularity degree d, in KEYS
order: the prefix year, month, day, hour of length d+1. -/
def timeKeyList (d : Nat) : List MetadataKey :=
  [MetadataKey.year, MetadataKey.month, MetadataKey.day, MetadataKey.hour].take (d + 1)

/-- Grouping key of row i of the original dataframe: the values of the
mapped grouping columns, read through the caller-supplied column names. -/
def groupKeyAt (df : PDataFrame) (m : DBMetadataMapping) (ks : List MetadataKey)
    (i : Nat) : PeriodKey :=
  ks.map (fun k => df.cell (ColLabel.raw (m k)) i)

/-- Row i of the renamed dataframe restricted to the canonical metadata
columns, in mapping key order, as the partitioner builds block rows from
restricted_renamed_df. -/
def restrictedRowAt (df : PDataFrame) (m : DBMetadataMapping) (i : Nat) :
    List (ColLabel × Option ℚ) :=
  MetadataKey.ordered.map (fun k => (canonicalLabel k, (df.rename m).cell (canonicalLabel k) i))

/-- Rows of one block: original positional indices paired with the
restricted renamed row contents. -/
abbrev BlockR := List (Nat × List (ColLabel × Option ℚ))

/-- ConfigurationError raised by the partitioner, carrying the formatted
message and the offending resolution value. -/
structure ConfigurationError where
  message : String
  resolution : TimeResolution
deriving DecidableEq, Repr

/-- The configuration error built by __build_blocks_structure for an
unrecognized resolution; the Python message wraps the value in quotes, which
are omitted here. -/
def configurationErrorFor (res : TimeResolution) : ConfigurationError :=
  ⟨TimeResolution.pyName res ++ " is not a known time resolution", res⟩

/-- Blocks of the partitioner for granularity degree d: the distinct
grouping keys, in order of appearance, each paired with the rows (position
and restricted renamed content) whose grouping key matches, positions in
increasing order, mirroring dataframe.groupby(list_column_names).indices
followed by restricted_renamed_df.loc. -/
def blocksFor (df : PDataFrame) (m : DBMetadataMapping) (d : Nat) :
    List (PeriodKey × BlockR) :=
  (((List.range df.nRows).map (groupKeyAt df m (timeKeyList d))).dedup).map (fun kk =>
    (kk, ((List.range df.nRows).filter
            (fun i => decide (groupKeyAt df m (timeKeyList d) i = kk))).map
          (fun i => (i, restrictedRowAt df m i))))

/-- State of the caller-supplied dataframe after the partitioner returns:
with inplace renaming the columns are renamed and the index name is set to
INDEX_NAME; otherwise the caller table is untouched (rename copies). -/
def callerAfter (df : PDataFrame) (m : DBMetadataMapping) (inplace : Bool) : PDataFrame :=
  if inplace then ⟨(df.rename m).cols, some INDEX_NAME⟩ else df

/-- Result of the partitioner: the computed blocks and the post-call state
of the caller table. -/
structure BuildResult where
  blocks : List (PeriodKey × BlockR)
  callerDf : PDataFrame
deriving Repr

/-- Shallow embedding of __build_blocks_structure
(xarray_channel_extraction.py, lines 143-191): look the declared resolution
up in TimeResolution.KEYS (ConfigurationError when absent), group the rows
of the table by the mapped column values of the canonical time-key prefix,
rename the columns to canonical labels (in place or on a copy), set the
index name, restrict to the mapped columns and emit one block per distinct
grouping key.  The KeyError pandas would raise for a mapping naming an
absent column is not modelled; theorems assume the mapping covers the
table. -/
def buildBlocksStructure (df : PDataFrame) (m : DBMetadataMapping)
    (res : TimeResolution) (inplace : Bool) :
    Except ConfigurationError BuildResult :=
  match TimeResolution.KEYS.findIdx? (fun k => decide (k = res)) with
  | none => .error (configurationErrorFor res)
  | some d => .ok ⟨blocksFor df m d, callerAfter df m inplace⟩

/-- Lookup in an association list by first matching key, the extensional
content of a Python dictionary access. -/
def lookupAssoc {α β : Type} [DecidableEq α] (l : List (α × β)) (a : α) : Option β :=
  (l.find? (fun p => decide (p.1 = a))).map (fun p => p.2)

/-- Inner mapping the merger builds for one period: every label whose
structure has a block for the period, in label order, paired with that
block; labels without a block for the period contribute nothing. -/
def mergeInner {β : Type} (structures : List (String × List (PeriodKey × β)))
    (p : PeriodKey) : List (String × β) :=
  structures.filterMap (fun ls => (lookupAssoc ls.2 p).map (fun b => (ls.1, b)))

/-- Period universe of the merger: the union of the period key sets of all
labels (the Python set is modelled as a deduplicated list; its iteration
order is not semantically significant). -/
def mergePeriods {β : Type} (structures : List (String × List (PeriodKey × β))) :
    List PeriodKey :=
  ((structures.map (fun ls => ls.2.map Prod.fst)).flatten).dedup

/-- Shallow embedding of __merge_block_structures
(xarray_channel_extraction.py, lines 123-140): for every period of the
union an entry is created exactly when some label has a block for it, and
the entry maps each such label to its block. -/
def mergeBlockStructures {β : Type} (structures : List (String × List (PeriodKey × β))) :
    List (PeriodKey × List (String × β)) :=
  (mergePeriods structures).filterMap (fun p =>
    (if (mergeInner structures p).isEmpty then none
     else some (mergeInner structures p)).map (fun inner => (p, inner)))

/-- Cell values of a converted record: the numeric values coming from the
dataframe plus the zero-padded string renderings added by
convert_block_to_dict. -/
inductive CellVal where
  | num (q : ℚ)
  | str (s : String)
deriving DecidableEq, Repr

/-- Python error values raised by the embedded functions. -/
inductive PyErr where
  | valueError (msg : String)
  | keyError (key : String)
  | attributeError (msg : String)
  | typeError (msg : String)
  | nameError (name : String)
deriving DecidableEq, Repr

/-- Readable rendering of a column label, used as KeyError payload. -/
def ColLabel.describe : ColLabel → String
  | .raw s => s
  | .timeKey t => TimeResolution.pyName t
  | .coord .lat => "Coordinate.LAT"
  | .coord .lon => "Coordinate.LON"

/-- Python 02d formatting of an integer: zero-padded to a minimal width of
two characters, the sign included in the width. -/
def format02d (n : ℤ) : String :=
  if n < 0 then "-" ++ toString n.natAbs
  else if n < 10 then "0" ++ toString n.natAbs
  else toString n.natAbs

/-- Records view of a dataframe, as DataFrame.to_dict with orient records:
one association list per row, in row order, keys in column order. -/
def PDataFrame.records (df : PDataFrame) : List (List (ColLabel × CellVal)) :=
  (List.range df.nRows).map (fun i =>
    df.cols.map (fun c => (c.1, CellVal.num (c.2.getD i 0))))

/-- Python dictionary read of one record key (KeyError when absent). -/
def pyGetItem (r : List (ColLabel × CellVal)) (k : ColLabel) : Except PyErr CellVal :=
  match lookupAssoc r k with
  | some v => .ok v
  | none => .error (.keyError k.describe)

/-- Python 02d formatting of a cell: only integral numeric values format;
a fractional or string value raises ValueError as the d format code does. -/
def formatCell02d : CellVal → Except PyErr String
  | .num q =>
      if q.den = 1 then .ok (format02d q.num)
      else .error (.valueError "Unknown format code d for object of type float")
  | .str _ => .error (.valueError "Unknown format code d for object of type str")

/-- Python dictionary assignment on a record: an existing key is overwritten
in place, a new key is appended at the end. -/
def pySetItem (r : List (ColLabel × CellVal)) (k : ColLabel) (v : CellVal) :
    List (ColLabel × CellVal) :=
  if (r.find? (fun e => decide (e.1 = k))).isSome then
    r.map (fun e => if e.1 = k then (k, v) else e)
  else r ++ [(k, v)]

/-- Conversion of one record as the loop body of convert_block_to_dict:
reads the month, day and hour values and installs their two-digit
renderings under the 2D keys, in that order. -/
def convertRecord (r : List (ColLabel × CellVal)) :
    Except PyErr (List (ColLabel × CellVal)) := do
  let mv ← pyGetItem r (ColLabel.timeKey .month)
  let ms ← formatCell02d mv
  let r1 := pySetItem r (ColLabel.timeKey .month2d) (CellVal.str ms)
  let dv ← pyGetItem r1 (ColLabel.timeKey .day)
  let ds ← formatCell02d dv
  let r2 := pySetItem r1 (ColLabel.timeKey .day2d) (CellVal.str ds)
  let hv ← pyGetItem r2 (ColLabel.timeKey .hour)
  let hs ← formatCell02d hv
  .ok (pySetItem r2 (ColLabel.timeKey .hour2d) (CellVal.str hs))

/-- Shallow embedding of convert_block_to_dict
(xarray_channel_extraction.py, lines 47-54): the records of the block, each
extended with the two-digit renderings of its month, day and hour. -/
def convertBlockToDict (block : PDataFrame) :
    Except PyErr (List (List (ColLabel × CellVal))) :=
  block.records.mapM convertRecord

/-- Rounding of a rational to a number of decimal places. -/
def roundDecimal (q : ℚ) (nd : ℕ) : ℚ :=
  ((round (q * 10 ^ nd) : ℤ) : ℚ) / 10 ^ nd

/-- Modelled from the spec: CoordinateUtils.round_nearest lives in
coordinate_utils which is not under src.  Spec section 2 describes it as
rounding a coordinate to the nearest grid sample given a resolution and a
decimal precision. -/
def roundNearest (value resolution : ℚ) (nbDecimal : ℕ) : ℚ :=
  roundDecimal (((round (value / resolution) : ℤ) : ℚ) * resolution) nbDecimal

/-- Bounding box selected by the region extractor. -/
structure LatLonBounds where
  latMin : ℚ
  latMax : ℚ
  lonMin : ℚ
  lonMax : ℚ
deriving DecidableEq, Repr

/-- Shallow embedding of the bound computation of
XarrayTimeSeries._extract_square_region (time_series.py, lines 78-132):
optional snapping of the centre coordinates to the grid, the asymmetric
inclusive-slice bounds, and the exchange of the latitude bounds when the
latitude series of the dataset is stored in descending order.  The same
bounds feed the selection of both single-level and multi-level variables;
an empty latitude series would raise an IndexError in Python, so theorems
require the series to be nonempty. -/
def extractSquareRegionBounds (latRes lonRes : ℚ) (latNbDecimal lonNbDecimal : ℕ)
    (latSeries : List ℚ) (lat lon halfLatFrame halfLonFrame : ℚ)
    (hasToRound : Bool) : LatLonBounds :=
  let lat := if hasToRound then roundNearest lat latRes latNbDecimal else lat
  let lon := if hasToRound then roundNearest lon lonRes lonNbDecimal else lon
  let latMin := lat - halfLatFrame + latRes
  let latMax := lat + halfLatFrame
  let lonMin := lon - halfLonFrame
  let lonMax := lon + halfLonFrame - lonRes
  if latSeries.headD 0 > latSeries.getLastD 0 then
    ⟨latMax, latMin, lonMin, lonMax⟩
  else
    ⟨latMin, latMax, lonMin, lonMax⟩

/-- Extracted region: the materialized sub-array with coordinate labels
dropped, flattened element-wise. -/
abbrev Region := List ℚ

/-- Evaluation errors of the postfix calculator. -/
inductive EvalError where
  | unresolvedOperand (token : String)
  | stackUnderflow (expr : List String)
  | malformedExpression (expr : List String)
deriving DecidableEq, Repr

/-- Arithmetic operator tokens of the postfix calculator. -/
def isArithmeticOp (tok : String) : Bool :=
  tok = "+" || tok = "-" || tok = "*" || tok = "/"

/-- Element-wise application of an arithmetic operator to two regions. -/
def applyOp (tok : String) (a b : Region) : Region :=
  if tok = "+" then List.zipWith (fun x y => x + y) a b
  else if tok = "-" then List.zipWith (fun x y => x - y) a b
  else if tok = "*" then List.zipWith (fun x y => x * y) a b
  else List.zipWith (fun x y => x / y) a b

/-- Modelled from the spec: XarrayRpnCalculator lives in xarray_utils which
is not under src.  Spec section 4.5: walk the token sequence, pushing the
region resolved for each operand identifier and applying operators
element-wise with a stack discipline (an operator pops two operands and
pushes one result); an operand with no entry in the resolved mapping or a
final stack that does not hold exactly one value is an evaluation error. -/
def xarrayRpnCompute (tokens : List String) (mapping : List (String × Region)) :
    Except EvalError Region := do
  let final ← tokens.foldlM (fun stack tok =>
    if isArithmeticOp tok then
      match stack with
      | b :: a :: rest => .ok (applyOp tok a b :: rest)
      | _ => .error (EvalError.stackUnderflow tokens)
    else
      match lookupAssoc mapping tok with
      | some r => .ok (r :: stack)
      | none => .error (EvalError.unresolvedOperand tok)) []
  match final with
  | [r] => .ok r
  | _ => .error (EvalError.malformedExpression tokens)

/-- Shallow embedding of the ExtractionComputedVariable visitor
(time_series.py, lines 149-176): visiting a single-level or multi-level
operand extracts its region at the stored parameters and records it in
data_array_mapping under the operand identifier; visiting the computed
variable runs the RPN calculator on its expression over the accumulated
mapping.  The traversal order of accept over the leaf operands is modelled
from the spec (the variable module is not under src); extraction at fixed
parameters is the abstract function passed in, so a duplicated operand
identifier is overwritten with the identical region. -/
def evaluateComputedVariable (extract : String → Region) (operands : List String)
    (tokens : List String) : Except EvalError Region :=
  xarrayRpnCompute tokens (operands.map (fun s => (s, extract s)))

/-- Dynamic Python values flowing through the dispatcher: integers,
strings, tuples (also standing for lists, which iterate identically) and
dictionaries. -/
inductive PyObj where
  | int (n : ℤ)
  | str (s : String)
  | tup (elems : List PyObj)
  | dict (entries : List (PyObj × PyObj))

/-- Equality test on scalar Python values. -/
def pyScalarEq : PyObj → PyObj → Bool
  | .int a, .int b => a == b
  | .str a, .str b => a == b
  | _, _ => false

/-- Equality test on the hashable key shapes that occur as dictionary keys
in the dispatcher: scalars and flat tuples of scalars (the period
tuples). -/
def pyKeyEq : PyObj → PyObj → Bool
  | .tup as, .tup bs =>
      as.length == bs.length && (as.zip bs).all (fun x => pyScalarEq x.1 x.2)
  | a, b => pyScalarEq a b

/-- Python str() of a scalar. -/
def pyScalarStr : PyObj → String
  | .int n => toString n
  | .str s => s
  | _ => ""

/-- Python str() of a period value as it is interpolated into file paths:
tuples render with parentheses and comma separators, a one-element tuple
with a trailing comma. -/
def periodStr : PyObj → String
  | .tup [] => "()"
  | .tup [e] => "(" ++ pyScalarStr e ++ ",)"
  | .tup es => "(" ++ String.intercalate ", " (es.map pyScalarStr) ++ ")"
  | o => pyScalarStr o

/-- Python unpacking of a string into two targets: succeeds exactly for a
two-character string, yielding two one-character strings. -/
def unpackStr2 (s : String) : Except PyErr (String × String) :=
  match s.toList with
  | [a, b] => .ok (String.mk [a], String.mk [b])
  | l =>
      if l.length < 2 then
        .error (.valueError
          ("not enough values to unpack (expected 2, got " ++ toString l.length ++ ")"))
      else .error (.valueError "too many values to unpack (expected 2)")

/-- Python unpacking of an arbitrary value into two targets: a two-element
tuple yields its elements, a two-character string its characters, a
dictionary with exactly two entries its keys; anything else raises. -/
def pyUnpack2 : PyObj → Except PyErr (PyObj × PyObj)
  | .tup [a, b] => .ok (a, b)
  | .tup es =>
      if es.length < 2 then
        .error (.valueError
          ("not enough values to unpack (expected 2, got " ++ toString es.length ++ ")"))
      else .error (.valueError "too many values to unpack (expected 2)")
  | .str s => (unpackStr2 s).map (fun p => (PyObj.str p.1, PyObj.str p.2))
  | .dict es =>
      match es.map Prod.fst with
      | [k1, k2] => .ok (k1, k2)
      | ks =>
          if ks.length < 2 then
            .error (.valueError
              ("not enough values to unpack (expected 2, got " ++ toString ks.length ++ ")"))
          else .error (.valueError "too many values to unpack (expected 2)")
  | .int _ => .error (.typeError "cannot unpack non-iterable int object")

/-- Python dictionary insertion: the value of an equal existing key is
overwritten in place, otherwise the entry is appended. -/
def pyDictInsert (es : List (PyObj × PyObj)) (k v : PyObj) : List (PyObj × PyObj) :=
  if (es.find? (fun e => pyKeyEq e.1 k)).isSome then
    es.map (fun e => if pyKeyEq e.1 k then (e.1, v) else e)
  else es ++ [(k, v)]

/-- Python dict() applied to an iterable value: iterate it (a tuple or list
iterates its elements, a dictionary its keys), unpack every element as a
key-value pair and insert the pairs in order. -/
def pyDictOf : PyObj → Except PyErr PyObj
  | .tup es => do
      let pairs ← es.mapM pyUnpack2
      .ok (.dict (pairs.foldl (fun acc p => pyDictInsert acc p.1 p.2) []))
  | .dict es => do
      let pairs ← (es.map Prod.fst).mapM pyUnpack2
      .ok (.dict (pairs.foldl (fun acc p => pyDictInsert acc p.1 p.2) []))
  | _ => .error (.typeError "argument of dict is not iterable")

/-- File-system effects of the dispatcher, recorded rather than performed. -/
inductive FileWrite where
  | makeDirs (path : String)
  | csv (path : String) (block : PDataFrame) (options : List (String × String))
  | hdf5 (path : String) (data : List ℚ)

/-- Modelled from the spec: file_utils is not under src.  NAME_SEPARATOR is
the separator appended after the period rendering in output file names and
the extensions are those of the delimited-text and binary-array outputs of
spec section 6. -/
def NAME_SEPARATOR : String := "_"

/-- CSV file extension of the metadata output files. -/
def CSV_FILE_EXTENSION : String := "csv"

/-- HDF5 file extension of the binary array output files. -/
def HDF5_FILE_EXTENSION : String := "h5"

/-- Joining of two path components, as os.path.join on POSIX. -/
def pathJoin (a b : String) : String := a ++ "/" ++ b

/-- Parent directory of a path, as os.path.dirname on POSIX. -/
def pathDirname (s : String) : String :=
  let parts := s.splitOn "/"
  if parts.length ≤ 1 then "" else String.intercalate "/" parts.dropLast

/-- Mapping from label to its metadata block for one period. -/
abbrev LabelBlocks := List (String × PDataFrame)

/-- Mapping from label to its extracted array data for one period. -/
abbrev ExtractedData := List (String × List ℚ)

/-- The caller-supplied processing callback: one period and its label
blocks produce a destination path and the per-label extracted arrays. -/
abbrev ProcessingFunction := PyObj → LabelBlocks → String × ExtractedData

/-- CSV save options broadcast to the workers. -/
abbrev CsvSaveOptions := List (String × String)

/-- Shallow embedding of __core_extraction (xarray_channel_extraction.py,
lines 99-119).  The source iterates the dictionary of extracted data blocks
directly, which in Python yields its keys, so each label string is itself
unpacked into the two loop targets: a label whose length differs from two
raises ValueError; otherwise label_id is bound to the first character (so
the metadata block lookup raises KeyError unless that one-character string
is a label) and data_block to the second character, whose values attribute
access raises AttributeError after the metadata file write.  Only a
processing function returning an empty mapping completes the loop.  File
writes attempted before a raise are dropped with the error, matching the
spec remark that partially written files of a failed period are not rolled
back or tracked. -/
def coreExtraction (fn : ProcessingFunction) (csvOptions : CsvSaveOptions)
    (item : PyObj × LabelBlocks) :
    Except PyErr ((PyObj × PyObj) × List FileWrite) := do
  let period := item.1
  let blocks := item.2
  let procResult := fn period blocks
  let filePrefixPath := procResult.1
  let extractedDataBlocks := procResult.2
  let step := fun (acc : List (PyObj × PyObj) × List FileWrite) (key : String) => do
    let unpacked ← unpackStr2 key
    let labelId := unpacked.1
    let specificPath :=
      pathJoin (pathJoin filePrefixPath labelId) (periodStr period ++ NAME_SEPARATOR)
    let writes := acc.2 ++ [FileWrite.makeDirs (pathDirname filePrefixPath)]
    let metadataPath := specificPath ++ "." ++ CSV_FILE_EXTENSION
    match lookupAssoc blocks labelId with
    | none => Except.error (PyErr.keyError labelId)
    | some block =>
        let _writes2 := writes ++ [FileWrite.csv metadataPath block csvOptions]
        Except.error (PyErr.attributeError "str object has no attribute values")
  let folded ← (extractedDataBlocks.map Prod.fst).foldlM step ([], [])
  .ok ((period, PyObj.dict folded.1), folded.2)

/-- Shallow embedding of the dispatch tail of extract
(xarray_channel_extraction.py, lines 88-96).  A nonzero worker count maps
__core_extraction over the merged items through a pool (modelled as an
in-order map, as pool.map preserves input order) and applies dict() to the
returned list of pairs.  A zero worker count runs the loop sequentially
but rebinds tmp_result at every iteration, so dict() is applied to the
last (period, result) tuple alone, and an empty input leaves tmp_result
unbound, raising NameError. -/
def extractDispatch (fn : ProcessingFunction) (csvOptions : CsvSaveOptions)
    (items : List (PyObj × LabelBlocks)) (nbWorkers : Nat) :
    Except PyErr (PyObj × List FileWrite) := do
  if nbWorkers ≠ 0 then
    let results ← items.mapM (coreExtraction fn csvOptions)
    let tmpResult := PyObj.tup (results.map (fun r => PyObj.tup [r.1.1, r.1.2]))
    let d ← pyDictOf tmpResult
    .ok (d, (results.map (fun r => r.2)).flatten)
  else
    let results ← items.mapM (coreExtraction fn csvOptions)
    match results.getLast? with
    | none => .error (PyErr.nameError "tmp_result")
    | some lastResult => do
        let d ← pyDictOf (PyObj.tup [lastResult.1.1, lastResult.1.2])
        .ok (d, (results.map (fun r => r.2)).flatten)

/-- Test fixture: the column-name mapping of the unit test, sending each
canonical key to the identically named raw column. -/
def testMapping : DBMetadataMapping
  | .year => "year"
  | .month => "month"
  | .day => "day"
  | .hour => "hour"
  | .lat => "lat"
  | .lon => "lon"

/-- Test fixture: a three-row metadata table covering two months. -/
def testDf : PDataFrame :=
  ⟨[(ColLabel.raw "year", [2000, 2000, 2000]),
    (ColLabel.raw "month", [9, 10, 9]),
    (ColLabel.raw "day", [1, 2, 3]),
    (ColLabel.raw "hour", [0, 6, 12]),
    (ColLabel.raw "lat", [39, 40, 41]),
    (ColLabel.raw "lon", [300, 301, 302])], none⟩

/-- Test fixture: a one-row block with canonical column labels, as the
partitioner produces. -/
def testBlock : PDataFrame :=
  ⟨[(ColLabel.timeKey .year, [2000]),
    (ColLabel.timeKey .month, [9]),
    (ColLabel.timeKey .day, [1]),
    (ColLabel.timeKey .hour, [0]),
    (ColLabel.coord .lat, [39]),
    (ColLabel.coord .lon, [300])], some INDEX_NAME⟩

/-- Test fixture: the period tuple (2000, 10). -/
def testPeriodObj : PyObj := PyObj.tup [PyObj.int 2000, PyObj.int 10]

/-- Test fixture: default-like CSV save options. -/
def testCsvOptions : CsvSaveOptions :=
  [("sep", ","), ("encoding", "utf8"), ("line_terminator", "\n")]

/-- Test fixture: a processing callback that extracts one array for the
cyclone label. -/
def testProcessing : ProcessingFunction :=
  fun _ _ => ("out", [("cyclone", [(1 : ℚ), 2])])

/-- Test fixture: a processing callback whose extracted mapping is empty,
which is the one shape on which __core_extraction completes. -/
def testEmptyProcessing : ProcessingFunction :=
  fun _ _ => ("out", [])

/-- Test fixture: one merged item for the period (2000, 10) with the
cyclone label. -/
def testItems : List (PyObj × LabelBlocks) :=
  [(testPeriodObj, [("cyclone", testBlock)])]

/-- Test fixture: a one-period block structure for one label. -/
def testStructA : List (PeriodKey × PDataFrame) :=
  [([some (2000 : ℚ), some 9], testBlock)]

/-- Test fixture: a two-period block structure for another label. -/
def testStructB : List (PeriodKey × PDataFrame) :=
  [([some (2000 : ℚ), some 9], testBlock), ([some (2000 : ℚ), some 10], testBlock)]

/-- Test of a record cell under a key: present, numeric and integral (the
shape on which the Python d format code succeeds). -/
def intCellAt (r : List (ColLabel × CellVal)) (k : ColLabel) : Bool :=
  match lookupAssoc r k with
  | some (CellVal.num q) => q.den == 1
  | _ => false

/-- Lookup distributes over a cons cell of an association list. -/
theorem lookupAssoc_cons {α β : Type} [DecidableEq α] (a : α) (b : β)
    (l : List (α × β)) (x : α) :
    lookupAssoc ((a, b) :: l) x = if a = x then some b else lookupAssoc l x := by
  by_cases h : a = x <;> simp [lookupAssoc, h]

/-- Lookup succeeds exactly on the keys of the association list. -/
theorem lookupAssoc_isSome_iff {α β : Type} [DecidableEq α]
    (l : List (α × β)) (a : α) :
    (lookupAssoc l a).isSome = true ↔ a ∈ l.map Prod.fst := by
  induction l with
  | nil => simp [lookupAssoc]
  | cons e l ih =>
      obtain ⟨k, v⟩ := e
      rw [lookupAssoc_cons]
      by_cases h : k = a
      · simp [h]
      · simp [h, ih, show ¬ a = k from fun e2 => h e2.symm]

/-- Lookup fails exactly off the keys of the association list. -/
theorem lookupAssoc_eq_none_iff {α β : Type} [DecidableEq α]
    (l : List (α × β)) (a : α) :
    lookupAssoc l a = none ↔ a ∉ l.map Prod.fst := by
  rw [← Option.not_isSome_iff_eq_none]
  exact not_congr (lookupAssoc_isSome_iff l a)

/-- Unfolding of the merger inner mapping over a label whose partition has
no block for the period. -/
theorem mergeInner_cons_none {β : Type} {l0 : String}
    {st0 : List (PeriodKey × β)} {s : List (String × List (PeriodKey × β))}
    {p : PeriodKey} (hq : lookupAssoc st0 p = none) :
    mergeInner ((l0, st0) :: s) p = mergeInner s p := by
  simp [mergeInner, List.filterMap_cons, hq]

/-- Unfolding of the merger inner mapping over a label whose partition has
a block for the period. -/
theorem mergeInner_cons_some {β : Type} {l0 : String}
    {st0 : List (PeriodKey × β)} {s : List (String × List (PeriodKey × β))}
    {p : PeriodKey} {b : β} (hq : lookupAssoc st0 p = some b) :
    mergeInner ((l0, st0) :: s) p = (l0, b) :: mergeInner s p := by
  simp [mergeInner, List.filterMap_cons, hq]

/-- Lookup in an entry list built over a period list, each entry keyed by
its source period: the result is the value produced for the looked-up
period when that period occurs in the list. -/
theorem lookupAssoc_filterMap {β : Type}
    (g : PeriodKey → Option (List (String × β))) (ps : List PeriodKey) (p : PeriodKey) :
    lookupAssoc (ps.filterMap (fun q => (g q).map (fun v => (q, v)))) p
      = if p ∈ ps then g p else none := by
  induction ps with
  | nil => simp [lookupAssoc]
  | cons q ps ih =>
      rw [List.filterMap_cons]
      by_cases hq : q = p
      · subst hq
        cases hgq : g q with
        | none => simp [hgq, ih]
        | some v => simp [hgq, lookupAssoc_cons]
      · cases hgq : g q with
        | none =>
            simp [hgq, ih, List.mem_cons, show ¬ p = q from fun h => hq h.symm]
        | some v =>
            simp [hgq, lookupAssoc_cons, hq, ih, List.mem_cons,
              show ¬ p = q from fun h => hq h.symm]

/-- The inner mapping of the merger is empty exactly when no label has a
block for the period. -/
theorem mergeInner_eq_nil_iff {β : Type}
    (s : List (String × List (PeriodKey × β))) (p : PeriodKey) :
    mergeInner s p = [] ↔ ∀ ls ∈ s, lookupAssoc ls.2 p = none := by
  simp [mergeInner, List.filterMap_eq_nil_iff]

/-- A period belongs to the merger period universe exactly when some label
partition carries it. -/
theorem mem_mergePeriods_iff {β : Type}
    (s : List (String × List (PeriodKey × β))) (p : PeriodKey) :
    p ∈ mergePeriods s ↔ ∃ ls ∈ s, p ∈ ls.2.map Prod.fst := by
  unfold mergePeriods
  rw [List.mem_dedup, List.mem_flatten]
  constructor
  · rintro ⟨l, hl, hp⟩
    rcases List.mem_map.mp hl with ⟨ls, hls, rfl⟩
    exact ⟨ls, hls, hp⟩
  · rintro ⟨ls, hls, hp⟩
    exact ⟨ls.2.map Prod.fst, List.mem_map.mpr ⟨ls, hls, rfl⟩, hp⟩

/-- A period is in the merger universe exactly when its inner mapping is
nonempty. -/
theorem mem_mergePeriods_iff_inner {β : Type}
    (s : List (String × List (PeriodKey × β))) (p : PeriodKey) :
    p ∈ mergePeriods s ↔ ¬ mergeInner s p = [] := by
  rw [mem_mergePeriods_iff, mergeInner_eq_nil_iff]
  constructor
  · rintro ⟨ls, hls, hp⟩ hall
    have := hall ls hls
    rw [lookupAssoc_eq_none_iff] at this
    exact this hp
  · intro hnot
    by_contra hno
    apply hnot
    intro ls hls
    rw [lookupAssoc_eq_none_iff]
    intro hp
    exact hno ⟨ls, hls, hp⟩

/-- Lookup of a period in the merged structure yields its inner mapping
exactly when that inner mapping is nonempty. -/
theorem lookupAssoc_merge {β : Type}
    (s : List (String × List (PeriodKey × β))) (p : PeriodKey) :
    lookupAssoc (mergeBlockStructures s) p
      = if (mergeInner s p).isEmpty then none else some (mergeInner s p) := by
  unfold mergeBlockStructures
  rw [lookupAssoc_filterMap
    (fun q => if (mergeInner s q).isEmpty then none else some (mergeInner s q))
    (mergePeriods s) p]
  by_cases hp : p ∈ mergePeriods s
  · simp [hp]
  · have hnil : mergeInner s p = [] := by
      by_contra hne
      exact hp ((mem_mergePeriods_iff_inner s p).mpr hne)
    simp [hp, hnil]

/-- A label that is no key of the structures has no entry in any inner
mapping of the merger. -/
theorem lookupAssoc_mergeInner_of_not_mem {β : Type}
    {s : List (String × List (PeriodKey × β))} {label : String}
    (h : label ∉ s.map Prod.fst) (p : PeriodKey) :
    lookupAssoc (mergeInner s p) label = none := by
  induction s with
  | nil => simp [mergeInner, lookupAssoc]
  | cons ls s ih =>
      obtain ⟨l0, st0⟩ := ls
      simp only [List.map_cons, List.mem_cons] at h
      push_neg at h
      cases hq : lookupAssoc st0 p with
      | none =>
          rw [mergeInner_cons_none hq]
          exact ih h.2
      | some b =>
          rw [mergeInner_cons_some hq, lookupAssoc_cons,
            if_neg (fun e => h.1 e.symm)]
          exact ih h.2

/-- With nodup labels, the entry of a label in the inner mapping of the
merger for a period is exactly the block of that label for the period. -/
theorem lookupAssoc_mergeInner {β : Type}
    {s : List (String × List (PeriodKey × β))} {label : String}
    {struct : List (PeriodKey × β)}
    (hl : (s.map Prod.fst).Nodup)
    (hs : lookupAssoc s label = some struct) (p : PeriodKey) :
    lookupAssoc (mergeInner s p) label = lookupAssoc struct p := by
  induction s with
  | nil => simp [lookupAssoc] at hs
  | cons ls s ih =>
      obtain ⟨l0, st0⟩ := ls
      simp only [List.map_cons, List.nodup_cons] at hl
      rw [lookupAssoc_cons] at hs
      by_cases hll : l0 = label
      · rw [if_pos hll] at hs
        injection hs with hs
        subst hs
        cases hq : lookupAssoc st0 p with
        | some b =>
            rw [mergeInner_cons_some hq, lookupAssoc_cons, if_pos hll]
        | none =>
            rw [mergeInner_cons_none hq]
            exact lookupAssoc_mergeInner_of_not_mem (hll ▸ hl.1) p
      · rw [if_neg hll] at hs
        cases hq : lookupAssoc st0 p with
        | some b =>
            rw [mergeInner_cons_some hq, lookupAssoc_cons, if_neg hll]
            exact ih hl.2 hs
        | none =>
            rw [mergeInner_cons_none hq]
            exact ih hl.2 hs

/-- A successful lookup witnesses membership of the key-value pair. -/
theorem lookupAssoc_mem {α β : Type} [DecidableEq α] {l : List (α × β)}
    {a : α} {b : β} (h : lookupAssoc l a = some b) : (a, b) ∈ l := by
  unfold lookupAssoc at h
  cases hf : l.find? (fun p => decide (p.1 = a)) with
  | none => rw [hf] at h; simp at h
  | some e =>
      rw [hf] at h
      simp at h
      obtain ⟨e1, e2⟩ := e
      have hmem := List.mem_of_find?_eq_some hf
      have hpred := List.find?_some hf
      simp only [decide_eq_true_eq] at hpred
      subst hpred
      subst h
      exact hmem

/-- Lookup of a period in the merged structure succeeds exactly when some
label partition carries the period. -/
theorem lookupAssoc_merge_isSome_iff {β : Type}
    (s : List (String × List (PeriodKey × β))) (p : PeriodKey) :
    (lookupAssoc (mergeBlockStructures s) p).isSome = true ↔
      ∃ ls ∈ s, p ∈ ls.2.map Prod.fst := by
  have hiff := (mem_mergePeriods_iff s p).symm.trans (mem_mergePeriods_iff_inner s p)
  rw [lookupAssoc_merge]
  by_cases hne : mergeInner s p = []
  · rw [if_pos (List.isEmpty_iff.mpr hne)]
    constructor
    · intro h; simp at h
    · intro hex; exact absurd hne (hiff.mp hex)
  · rw [if_neg (fun hemp => hne (List.isEmpty_iff.mp hemp))]
    constructor
    · intro _; exact hiff.mpr hne
    · intro _; rfl

/-- For a label bound to a partition in the structures (labels nodup), the
entry of that label under any period of the merged structure is exactly the
lookup of the period in the label partition. -/
theorem lookupAssoc_merge_bind {β : Type}
    {s : List (String × List (PeriodKey × β))}
    (hl : (s.map Prod.fst).Nodup) {label : String}
    {struct : List (PeriodKey × β)}
    (hs : lookupAssoc s label = some struct) (p : PeriodKey) :
    (lookupAssoc (mergeBlockStructures s) p).bind
      (fun inner => lookupAssoc inner label) = lookupAssoc struct p := by
  rw [lookupAssoc_merge]
  by_cases hne : mergeInner s p = []
  · rw [if_pos (List.isEmpty_iff.mpr hne)]
    have hrhs : lookupAssoc struct p = none := by
      rw [lookupAssoc_eq_none_iff]
      intro hp
      have hmem := lookupAssoc_mem hs
      have hnone := (mergeInner_eq_nil_iff s p).mp hne (label, struct) hmem
      rw [lookupAssoc_eq_none_iff] at hnone
      exact hnone hp
    rw [hrhs]
    rfl
  · rw [if_neg (fun hemp => hne (List.isEmpty_iff.mp hemp))]
    exact lookupAssoc_mergeInner hl hs p

/-- A label absent from the structures has no entry under any period of the
merged structure. -/
theorem lookupAssoc_merge_bind_none {β : Type}
    {s : List (String × List (PeriodKey × β))} {label : String}
    (hnl : label ∉ s.map Prod.fst) (p : PeriodKey) :
    (lookupAssoc (mergeBlockStructures s) p).bind
      (fun inner => lookupAssoc inner label) = none := by
  rw [lookupAssoc_merge]
  by_cases hne : mergeInner s p = []
  · rw [if_pos (List.isEmpty_iff.mpr hne)]
    rfl
  · rw [if_neg (fun hemp => hne (List.isEmpty_iff.mp hemp))]
    exact lookupAssoc_mergeInner_of_not_mem hnl p

/-- Splitting a list into its fibers over a nodup key list covering all its
keys and concatenating the fibers permutes the list. -/
theorem flatten_filter_perm {α K : Type} [DecidableEq K] (key : α → K) :
    ∀ ks : List K, ks.Nodup → ∀ l : List α, (∀ a ∈ l, key a ∈ ks) →
      ((ks.map (fun k => l.filter (fun a => decide (key a = k)))).flatten).Perm l := by
  intro ks
  induction ks with
  | nil =>
      intro _ l hcov
      cases l with
      | nil => simp
      | cons a t => exact absurd (hcov a (List.mem_cons_self a t)) (List.not_mem_nil (key a))
  | cons k ks ih =>
      intro hnd l hcov
      have hk : k ∉ ks := (List.nodup_cons.mp hnd).1
      have hnd2 : ks.Nodup := (List.nodup_cons.mp hnd).2
      have hmap : ks.map (fun k2 => l.filter (fun a => decide (key a = k2)))
          = ks.map (fun k2 => (l.filter (fun a => ! decide (key a = k))).filter
              (fun a => decide (key a = k2))) := by
        apply List.map_congr_left
        intro k2 hk2
        rw [List.filter_filter]
        apply List.filter_congr
        intro a _
        by_cases h : key a = k2
        · have hne : ¬ k2 = k := fun e => hk (e ▸ hk2)
          simp [h, hne]
        · simp [h]
      have hcov2 : ∀ a ∈ l.filter (fun a => ! decide (key a = k)), key a ∈ ks := by
        intro a ha
        have hmem := List.mem_filter.mp ha
        have hne : ¬ key a = k := by simpa using hmem.2
        have := hcov a hmem.1
        simp only [List.mem_cons] at this
        exact this.resolve_left hne
      have hperm := ih hnd2 (l.filter (fun a => ! decide (key a = k))) hcov2
      simp only [List.map_cons, List.flatten_cons]
      rw [hmap]
      exact ((hperm.append_left (l.filter (fun a => decide (key a = k)))).trans
        (List.filter_append_perm (fun a => decide (key a = k)) l))

/-- Concatenating the rows of all blocks of the partitioner permutes the
renamed restricted rows of the table, each tagged with its original
position. -/
theorem blocksFor_rows_perm (df : PDataFrame) (m : DBMetadataMapping) (d : Nat) :
    (((blocksFor df m d).map Prod.snd).flatten).Perm
      ((List.range df.nRows).map (fun i => (i, restrictedRowAt df m i))) := by
  have h := flatten_filter_perm
      (fun pr : Nat × List (ColLabel × Option ℚ) => groupKeyAt df m (timeKeyList d) pr.1)
      (((List.range df.nRows).map (groupKeyAt df m (timeKeyList d))).dedup)
      (List.nodup_dedup _)
      ((List.range df.nRows).map (fun i => (i, restrictedRowAt df m i)))
      (by
        intro a ha
        rcases List.mem_map.mp ha with ⟨i, hi, rfl⟩
        exact List.mem_dedup.mpr (List.mem_map.mpr ⟨i, hi, rfl⟩))
  have hfun : ∀ kk, ((List.range df.nRows).filter
        (fun i => decide (groupKeyAt df m (timeKeyList d) i = kk))).map
        (fun i => (i, restrictedRowAt df m i))
      = ((List.range df.nRows).map (fun i => (i, restrictedRowAt df m i))).filter
          (fun pr => decide (groupKeyAt df m (timeKeyList d) pr.1 = kk)) := by
    intro kk
    rw [List.filter_map]
    rfl
  unfold blocksFor
  rw [List.map_map]
  have hcomp : ((List.range df.nRows).map (groupKeyAt df m (timeKeyList d))).dedup.map
        ((Prod.snd ∘ fun kk => (kk, ((List.range df.nRows).filter
            (fun i => decide (groupKeyAt df m (timeKeyList d) i = kk))).map
          (fun i => (i, restrictedRowAt df m i)))))
      = ((List.range df.nRows).map (groupKeyAt df m (timeKeyList d))).dedup.map
          (fun kk => ((List.range df.nRows).map
              (fun i => (i, restrictedRowAt df m i))).filter
            (fun pr => decide (groupKeyAt df m (timeKeyList d) pr.1 = kk))) := by
    apply List.map_congr_left
    intro kk _
    exact hfun kk
  rw [hcomp]
  exact h

/-- Every row of a block of the partitioner has the grouping key of its
block. -/
theorem blocksFor_key_agree (df : PDataFrame) (m : DBMetadataMapping) (d : Nat) :
    ∀ pb ∈ blocksFor df m d, ∀ ir ∈ pb.2,
      groupKeyAt df m (timeKeyList d) ir.1 = pb.1 := by
  intro pb hpb ir hir
  unfold blocksFor at hpb
  rcases List.mem_map.mp hpb with ⟨kk, _, rfl⟩
  rcases List.mem_map.mp hir with ⟨i, hi, rfl⟩
  simpa using (List.mem_filter.mp hi).2

/-- Claim C1: for every metadata table, covering column-name mapping and
supported time resolution, the partitioner splits the rows into blocks that
partition the table: the concatenation of all block rows permutes the
(renamed, restricted) input rows tagged with their original positions, so
no row is lost or duplicated, and all rows of one block share the grouping
key drawn from the canonical time-field prefix selected by the
resolution. -/
theorem c1_partitioner_partitions (df : PDataFrame) (m : DBMetadataMapping)
    (res : TimeResolution) (inplace : Bool)
    (hres : res ∈ TimeResolution.KEYS)
    (hcov : ∀ k ∈ MetadataKey.ordered, (df.getCol (ColLabel.raw (m k))).isSome = true) :
    ∃ d, TimeResolution.KEYS.findIdx? (fun k => decide (k = res)) = some d ∧
      ∃ br, buildBlocksStructure df m res inplace = .ok br ∧
        ((br.blocks.map Prod.snd).flatten).Perm
          ((List.range df.nRows).map (fun i => (i, restrictedRowAt df m i))) ∧
        ∀ pb ∈ br.blocks, ∀ ir ∈ pb.2,
          groupKeyAt df m (timeKeyList d) ir.1 = pb.1 := by
  cases res with
  | year =>
      exact ⟨0, rfl, ⟨_, rfl, blocksFor_rows_perm df m 0, blocksFor_key_agree df m 0⟩⟩
  | month =>
      exact ⟨1, rfl, ⟨_, rfl, blocksFor_rows_perm df m 1, blocksFor_key_agree df m 1⟩⟩
  | day =>
      exact ⟨2, rfl, ⟨_, rfl, blocksFor_rows_perm df m 2, blocksFor_key_agree df m 2⟩⟩
  | hour =>
      exact ⟨3, rfl, ⟨_, rfl, blocksFor_rows_perm df m 3, blocksFor_key_agree df m 3⟩⟩
  | month2d => exact absurd hres (by decide)
  | day2d => exact absurd hres (by decide)
  | hour2d => exact absurd hres (by decide)

/-- Witness for C1 at a concrete three-row table with the month
resolution. -/
theorem c1_partitioner_partitions_witness :
    ∃ d, TimeResolution.KEYS.findIdx?
        (fun k => decide (k = TimeResolution.month)) = some d ∧
      ∃ br, buildBlocksStructure testDf testMapping TimeResolution.month false = .ok br ∧
        ((br.blocks.map Prod.snd).flatten).Perm
          ((List.range testDf.nRows).map
            (fun i => (i, restrictedRowAt testDf testMapping i))) ∧
        ∀ pb ∈ br.blocks, ∀ ir ∈ pb.2,
          groupKeyAt testDf testMapping (timeKeyList d) ir.1 = pb.1 :=
  c1_partitioner_partitions testDf testMapping TimeResolution.month false
    (by decide) (by decide)

/-- Claim C6: the partitioner returns the ConfigurationError naming the
declared resolution exactly when the resolution is not one of the four
supported granularities of TimeResolution.KEYS, and succeeds for every
supported resolution. -/
theorem c6_configuration_error_iff (df : PDataFrame) (m : DBMetadataMapping)
    (res : TimeResolution) (inplace : Bool) :
    (res ∈ TimeResolution.KEYS →
      ∃ br, buildBlocksStructure df m res inplace = .ok br) ∧
    (res ∉ TimeResolution.KEYS →
      buildBlocksStructure df m res inplace = .error (configurationErrorFor res) ∧
      (configurationErrorFor res).resolution = res) := by
  constructor
  · intro h
    cases res with
    | year => exact ⟨_, rfl⟩
    | month => exact ⟨_, rfl⟩
    | day => exact ⟨_, rfl⟩
    | hour => exact ⟨_, rfl⟩
    | month2d => exact absurd h (by decide)
    | day2d => exact absurd h (by decide)
    | hour2d => exact absurd h (by decide)
  · intro h
    cases res with
    | year => exact absurd (by decide) h
    | month => exact absurd (by decide) h
    | day => exact absurd (by decide) h
    | hour => exact absurd (by decide) h
    | month2d => exact ⟨rfl, rfl⟩
    | day2d => exact ⟨rfl, rfl⟩
    | hour2d => exact ⟨rfl, rfl⟩

/-- Witness for C6: the supported month resolution succeeds and the
unsupported MONTH2D value yields the ConfigurationError carrying it. -/
theorem c6_configuration_error_iff_witness :
    (∃ br, buildBlocksStructure testDf testMapping TimeResolution.month false = .ok br) ∧
    (buildBlocksStructure testDf testMapping TimeResolution.month2d false
        = .error (configurationErrorFor TimeResolution.month2d) ∧
      (configurationErrorFor TimeResolution.month2d).resolution = TimeResolution.month2d) :=
  ⟨(c6_configuration_error_iff testDf testMapping TimeResolution.month false).1 (by decide),
   (c6_configuration_error_iff testDf testMapping TimeResolution.month2d false).2 (by decide)⟩

/-- Counterexample for C9: with in-place renaming requested the partitioner
also renames the row index of the caller table to INDEX_NAME, a mutation
beyond column renaming; the test table has no index name before the call
and the canonical index name after it. -/
theorem c9_counterexample :
    ∃ br, buildBlocksStructure testDf testMapping TimeResolution.month true = .ok br ∧
      testDf.indexName = none ∧
      br.callerDf.indexName = some INDEX_NAME ∧
      br.callerDf.indexName ≠ testDf.indexName :=
  ⟨_, rfl, rfl, rfl, by decide⟩

/-- Claim C9 (amended): without in-place renaming the partitioner leaves
the caller table unchanged; with in-place renaming the only mutations of
the caller table are the renaming of its columns to the canonical labels
and the setting of its index name to the canonical index name. -/
theorem c9_frame_effects (df : PDataFrame) (m : DBMetadataMapping)
    (res : TimeResolution) (inplace : Bool)
    (hres : res ∈ TimeResolution.KEYS) :
    ∃ br, buildBlocksStructure df m res inplace = .ok br ∧
      (inplace = false → br.callerDf = df) ∧
      (inplace = true → br.callerDf = ⟨(df.rename m).cols, some INDEX_NAME⟩) := by
  cases res with
  | year =>
      refine ⟨_, rfl, ?_, ?_⟩ <;> intro h <;> subst h <;> rfl
  | month =>
      refine ⟨_, rfl, ?_, ?_⟩ <;> intro h <;> subst h <;> rfl
  | day =>
      refine ⟨_, rfl, ?_, ?_⟩ <;> intro h <;> subst h <;> rfl
  | hour =>
      refine ⟨_, rfl, ?_, ?_⟩ <;> intro h <;> subst h <;> rfl
  | month2d => exact absurd hres (by decide)
  | day2d => exact absurd hres (by decide)
  | hour2d => exact absurd hres (by decide)

/-- Witness for C9 (amended) at the concrete test table, both inplace
settings. -/
theorem c9_frame_effects_witness :
    (∃ br, buildBlocksStructure testDf testMapping TimeResolution.month false = .ok br ∧
      (false = false → br.callerDf = testDf) ∧
      (false = true →
        br.callerDf = ⟨(testDf.rename testMapping).cols, some INDEX_NAME⟩)) ∧
    (∃ br, buildBlocksStructure testDf testMapping TimeResolution.month true = .ok br ∧
      (true = false → br.callerDf = testDf) ∧
      (true = true →
        br.callerDf = ⟨(testDf.rename testMapping).cols, some INDEX_NAME⟩)) :=
  ⟨c9_frame_effects testDf testMapping TimeResolution.month false (by decide),
   c9_frame_effects testDf testMapping TimeResolution.month true (by decide)⟩

/-- Claim C4: the merged structure of per-label partitions keys exactly the
union of all labels period key sets; for each period its inner mapping
binds exactly the labels having a block for that period, each to that
block, and a label without such a block (or absent from the structures)
has no entry rather than a placeholder. -/
theorem c4_merger_outer_join {β : Type} (s : List (String × List (PeriodKey × β)))
    (hl : (s.map Prod.fst).Nodup) (p : PeriodKey) :
    ((lookupAssoc (mergeBlockStructures s) p).isSome = true ↔
      ∃ ls ∈ s, p ∈ ls.2.map Prod.fst) ∧
    (∀ label struct, lookupAssoc s label = some struct →
      (lookupAssoc (mergeBlockStructures s) p).bind
        (fun inner => lookupAssoc inner label) = lookupAssoc struct p) ∧
    (∀ label, label ∉ s.map Prod.fst →
      (lookupAssoc (mergeBlockStructures s) p).bind
        (fun inner => lookupAssoc inner label) = none) :=
  ⟨lookupAssoc_merge_isSome_iff s p,
   fun _ _ hs => lookupAssoc_merge_bind hl hs p,
   fun _ hnl => lookupAssoc_merge_bind_none hnl p⟩

/-- Witness for C4 at two concrete labels whose period sets differ. -/
theorem c4_merger_outer_join_witness :
    ((lookupAssoc (mergeBlockStructures
        [("cyclone", testStructA), ("no_cyclone", testStructB)])
        [some (2000 : ℚ), some 10]).isSome = true ↔
      ∃ ls ∈ [("cyclone", testStructA), ("no_cyclone", testStructB)],
        [some (2000 : ℚ), some 10] ∈ ls.2.map Prod.fst) ∧
    (∀ label struct,
      lookupAssoc [("cyclone", testStructA), ("no_cyclone", testStructB)] label
        = some struct →
      (lookupAssoc (mergeBlockStructures
          [("cyclone", testStructA), ("no_cyclone", testStructB)])
          [some (2000 : ℚ), some 10]).bind
        (fun inner => lookupAssoc inner label) = lookupAssoc struct
          [some (2000 : ℚ), some 10]) ∧
    (∀ label,
      label ∉ [("cyclone", testStructA), ("no_cyclone", testStructB)].map Prod.fst →
      (lookupAssoc (mergeBlockStructures
          [("cyclone", testStructA), ("no_cyclone", testStructB)])
          [some (2000 : ℚ), some 10]).bind
        (fun inner => lookupAssoc inner label) = none) :=
  c4_merger_outer_join [("cyclone", testStructA), ("no_cyclone", testStructB)]
    (by decide) [some (2000 : ℚ), some 10]

/-- Claim C7: merging two per-label partitions in either label order yields
identical period-to-label-to-block content: the same periods are present
and every label of every period is bound to the same block. -/
theorem c7_merge_commutative {β : Type} (lA lB : String)
    (sA sB : List (PeriodKey × β)) (h : lA ≠ lB) (p : PeriodKey) (label : String) :
    ((lookupAssoc (mergeBlockStructures [(lA, sA), (lB, sB)]) p).isSome
      = (lookupAssoc (mergeBlockStructures [(lB, sB), (lA, sA)]) p).isSome) ∧
    ((lookupAssoc (mergeBlockStructures [(lA, sA), (lB, sB)]) p).bind
        (fun inner => lookupAssoc inner label)
      = (lookupAssoc (mergeBlockStructures [(lB, sB), (lA, sA)]) p).bind
          (fun inner => lookupAssoc inner label)) := by
  have hswap : ∀ ls : String × List (PeriodKey × β),
      ls ∈ [(lA, sA), (lB, sB)] ↔ ls ∈ [(lB, sB), (lA, sA)] := by
    intro ls
    simp [List.mem_cons, or_comm]
  have hlAB : ([(lA, sA), (lB, sB)].map Prod.fst).Nodup := by simp [h]
  have hlBA : ([(lB, sB), (lA, sA)].map Prod.fst).Nodup := by
    simp [show lB ≠ lA from fun e => h e.symm]
  constructor
  · have hex : (∃ ls ∈ [(lA, sA), (lB, sB)], p ∈ ls.2.map Prod.fst) ↔
        (∃ ls ∈ [(lB, sB), (lA, sA)], p ∈ ls.2.map Prod.fst) := by
      constructor
      · rintro ⟨ls, hls, hp⟩
        exact ⟨ls, (hswap ls).mp hls, hp⟩
      · rintro ⟨ls, hls, hp⟩
        exact ⟨ls, (hswap ls).mpr hls, hp⟩
    have hiff := ((lookupAssoc_merge_isSome_iff [(lA, sA), (lB, sB)] p).trans
      (hex.trans (lookupAssoc_merge_isSome_iff [(lB, sB), (lA, sA)] p).symm))
    exact Bool.coe_iff_coe.mp hiff
  · by_cases hA : label = lA
    · subst hA
      have e1 : lookupAssoc [(label, sA), (lB, sB)] label = some sA := by
        rw [lookupAssoc_cons, if_pos rfl]
      have e2 : lookupAssoc [(lB, sB), (label, sA)] label = some sA := by
        rw [lookupAssoc_cons, if_neg (fun e => h e.symm), lookupAssoc_cons, if_pos rfl]
      rw [lookupAssoc_merge_bind hlAB e1 p, lookupAssoc_merge_bind hlBA e2 p]
    · by_cases hB : label = lB
      · subst hB
        have e1 : lookupAssoc [(lA, sA), (label, sB)] label = some sB := by
          rw [lookupAssoc_cons, if_neg (fun e => hA e.symm), lookupAssoc_cons, if_pos rfl]
        have e2 : lookupAssoc [(label, sB), (lA, sA)] label = some sB := by
          rw [lookupAssoc_cons, if_pos rfl]
        rw [lookupAssoc_merge_bind hlAB e1 p, lookupAssoc_merge_bind hlBA e2 p]
      · have n1 : label ∉ [(lA, sA), (lB, sB)].map Prod.fst := by
          simp [hA, hB]
        have n2 : label ∉ [(lB, sB), (lA, sA)].map Prod.fst := by
          simp [hA, hB]
        rw [lookupAssoc_merge_bind_none n1 p, lookupAssoc_merge_bind_none n2 p]

/-- Witness for C7 at two concrete labels, a shared period and one of the
labels. -/
theorem c7_merge_commutative_witness :
    ((lookupAssoc (mergeBlockStructures
        [("cyclone", testStructA), ("no_cyclone", testStructB)])
        [some (2000 : ℚ), some 9]).isSome
      = (lookupAssoc (mergeBlockStructures
          [("no_cyclone", testStructB), ("cyclone", testStructA)])
          [some (2000 : ℚ), some 9]).isSome) ∧
    ((lookupAssoc (mergeBlockStructures
        [("cyclone", testStructA), ("no_cyclone", testStructB)])
        [some (2000 : ℚ), some 9]).bind
        (fun inner => lookupAssoc inner "cyclone")
      = (lookupAssoc (mergeBlockStructures
          [("no_cyclone", testStructB), ("cyclone", testStructA)])
          [some (2000 : ℚ), some 9]).bind
          (fun inner => lookupAssoc inner "cyclone")) :=
  c7_merge_commutative "cyclone" "no_cyclone" testStructA testStructB
    (by decide) [some (2000 : ℚ), some 9] "cyclone"

/-- Claim C5: for every single-level or multi-level variable extraction the
selection bounds satisfy lat_min = lat - half_lat + lat_resolution,
lat_max = lat + half_lat, lon_min = lon - half_lon and
lon_max = lon + half_lon - lon_resolution, applied to the optionally
rounded centre coordinates, and the latitude minimum and maximum are
exchanged exactly when the latitude axis of the grid is stored
descending. -/
theorem c5_region_bounds (latRes lonRes : ℚ) (latNbDecimal lonNbDecimal : ℕ)
    (latSeries : List ℚ) (lat lon halfLatFrame halfLonFrame : ℚ)
    (hasToRound : Bool) (hne : latSeries ≠ []) :
    ((extractSquareRegionBounds latRes lonRes latNbDecimal lonNbDecimal latSeries
        lat lon halfLatFrame halfLonFrame hasToRound).lonMin
      = (if hasToRound then roundNearest lon lonRes lonNbDecimal else lon)
          - halfLonFrame) ∧
    ((extractSquareRegionBounds latRes lonRes latNbDecimal lonNbDecimal latSeries
        lat lon halfLatFrame halfLonFrame hasToRound).lonMax
      = (if hasToRound then roundNearest lon lonRes lonNbDecimal else lon)
          + halfLonFrame - lonRes) ∧
    (latSeries.headD 0 > latSeries.getLastD 0 →
      (extractSquareRegionBounds latRes lonRes latNbDecimal lonNbDecimal latSeries
          lat lon halfLatFrame halfLonFrame hasToRound).latMin
        = (if hasToRound then roundNearest lat latRes latNbDecimal else lat)
            + halfLatFrame ∧
      (extractSquareRegionBounds latRes lonRes latNbDecimal lonNbDecimal latSeries
          lat lon halfLatFrame halfLonFrame hasToRound).latMax
        = (if hasToRound then roundNearest lat latRes latNbDecimal else lat)
            - halfLatFrame + latRes) ∧
    (¬ latSeries.headD 0 > latSeries.getLastD 0 →
      (extractSquareRegionBounds latRes lonRes latNbDecimal lonNbDecimal latSeries
          lat lon halfLatFrame halfLonFrame hasToRound).latMin
        = (if hasToRound then roundNearest lat latRes latNbDecimal else lat)
            - halfLatFrame + latRes ∧
      (extractSquareRegionBounds latRes lonRes latNbDecimal lonNbDecimal latSeries
          lat lon halfLatFrame halfLonFrame hasToRound).latMax
        = (if hasToRound then roundNearest lat latRes latNbDecimal else lat)
            + halfLatFrame) := by
  have he : extractSquareRegionBounds latRes lonRes latNbDecimal lonNbDecimal latSeries
      lat lon halfLatFrame halfLonFrame hasToRound
      = if latSeries.headD 0 > latSeries.getLastD 0 then
          (⟨(if hasToRound then roundNearest lat latRes latNbDecimal else lat) + halfLatFrame,
            (if hasToRound then roundNearest lat latRes latNbDecimal else lat)
              - halfLatFrame + latRes,
            (if hasToRound then roundNearest lon lonRes lonNbDecimal else lon) - halfLonFrame,
            (if hasToRound then roundNearest lon lonRes lonNbDecimal else lon)
              + halfLonFrame - lonRes⟩ : LatLonBounds)
        else
          ⟨(if hasToRound then roundNearest lat latRes latNbDecimal else lat)
              - halfLatFrame + latRes,
            (if hasToRound then roundNearest lat latRes latNbDecimal else lat) + halfLatFrame,
            (if hasToRound then roundNearest lon lonRes lonNbDecimal else lon) - halfLonFrame,
            (if hasToRound then roundNearest lon lonRes lonNbDecimal else lon)
              + halfLonFrame - lonRes⟩ := rfl
  by_cases hd : latSeries.headD 0 > latSeries.getLastD 0
  · rw [he, if_pos hd]
    exact ⟨rfl, rfl, fun _ => ⟨rfl, rfl⟩, fun hc => absurd hd hc⟩
  · rw [he, if_neg hd]
    exact ⟨rfl, rfl, fun hc => absurd hc hd, fun _ => ⟨rfl, rfl⟩⟩

/-- Witness for C5 at concrete resolutions, a descending two-point latitude
axis and no rounding. -/
theorem c5_region_bounds_witness :
    ((extractSquareRegionBounds 1 1 0 0 [(10 : ℚ), 0] 5 7 2 2 false).lonMin
      = (if false then roundNearest 7 1 0 else 7) - 2) ∧
    ((extractSquareRegionBounds 1 1 0 0 [(10 : ℚ), 0] 5 7 2 2 false).lonMax
      = (if false then roundNearest 7 1 0 else 7) + 2 - 1) ∧
    (([(10 : ℚ), 0] : List ℚ).headD 0 > ([(10 : ℚ), 0] : List ℚ).getLastD 0 →
      (extractSquareRegionBounds 1 1 0 0 [(10 : ℚ), 0] 5 7 2 2 false).latMin
        = (if false then roundNearest 5 1 0 else 5) + 2 ∧
      (extractSquareRegionBounds 1 1 0 0 [(10 : ℚ), 0] 5 7 2 2 false).latMax
        = (if false then roundNearest 5 1 0 else 5) - 2 + 1) ∧
    (¬ ([(10 : ℚ), 0] : List ℚ).headD 0 > ([(10 : ℚ), 0] : List ℚ).getLastD 0 →
      (extractSquareRegionBounds 1 1 0 0 [(10 : ℚ), 0] 5 7 2 2 false).latMin
        = (if false then roundNearest 5 1 0 else 5) - 2 + 1 ∧
      (extractSquareRegionBounds 1 1 0 0 [(10 : ℚ), 0] 5 7 2 2 false).latMax
        = (if false then roundNearest 5 1 0 else 5) + 2) :=
  c5_region_bounds 1 1 0 0 [(10 : ℚ), 0] 5 7 2 2 false (by decide)

/-- Claim C8: for a computed variable whose postfix expression is the
two-operand form A B +, evaluation yields the element-wise sum of the two
regions obtained by independently extracting A and B at the same
parameters (A and B being operand identifiers, not operator tokens). -/
theorem c8_sum_expression (extract : String → Region) (A B : String)
    (hA : isArithmeticOp A = false) (hB : isArithmeticOp B = false) :
    evaluateComputedVariable extract [A, B] [A, B, "+"]
      = .ok (List.zipWith (fun x y => x + y) (extract A) (extract B)) := by
  have hok : ∀ {γ δ : Type} (a : γ) (f : γ → Except EvalError δ),
      ((Except.ok a : Except EvalError γ) >>= f) = f a := fun _ _ => rfl
  obtain ⟨⟨⟨hA1, hA2⟩, hA3⟩, hA4⟩ :
      ((¬ A = "+" ∧ ¬ A = "-") ∧ ¬ A = "*") ∧ ¬ A = "/" := by
    simpa [isArithmeticOp] using hA
  obtain ⟨⟨⟨hB1, hB2⟩, hB3⟩, hB4⟩ :
      ((¬ B = "+" ∧ ¬ B = "-") ∧ ¬ B = "*") ∧ ¬ B = "/" := by
    simpa [isArithmeticOp] using hB
  by_cases hAB : A = B
  · subst hAB
    simp [evaluateComputedVariable, xarrayRpnCompute, lookupAssoc_cons,
      applyOp, isArithmeticOp, hok, hA1, hA2, hA3, hA4]
  · simp [evaluateComputedVariable, xarrayRpnCompute, lookupAssoc_cons,
      hAB, show ¬ B = A from fun e => hAB e.symm, applyOp, isArithmeticOp, hok,
      hA1, hA2, hA3, hA4, hB1, hB2, hB3, hB4]

/-- Witness for C8 at two concrete variable identifiers. -/
theorem c8_sum_expression_witness :
    evaluateComputedVariable (fun _ => [(1 : ℚ), 2]) ["msl", "tcwv"]
        ["msl", "tcwv", "+"]
      = .ok (List.zipWith (fun x y => x + y)
          ((fun _ : String => [(1 : ℚ), 2]) "msl")
          ((fun _ : String => [(1 : ℚ), 2]) "tcwv")) :=
  c8_sum_expression (fun _ => [(1 : ℚ), 2]) "msl" "tcwv" (by decide) (by decide)

/-- Binding an ok value in Except applies the continuation. -/
theorem exceptOkBind {ε γ δ : Type} (a : γ) (f : γ → Except ε δ) :
    ((Except.ok a : Except ε γ) >>= f) = f a := rfl

/-- Reading back the key written by a Python dictionary assignment yields
the written value. -/
theorem lookupAssoc_pySetItem_self (r : List (ColLabel × CellVal))
    (k : ColLabel) (v : CellVal) :
    lookupAssoc (pySetItem r k v) k = some v := by
  unfold pySetItem
  by_cases h : (r.find? (fun e => decide (e.1 = k))).isSome = true
  · rw [if_pos h]
    revert h
    induction r with
    | nil => intro h; simp at h
    | cons e r ih =>
        intro h
        obtain ⟨e1, e2⟩ := e
        by_cases he : e1 = k
        · simp only [List.map_cons]
          rw [show (if (e1, e2).1 = k then (k, v) else (e1, e2)) = (k, v) from by
            simp [he]]
          rw [lookupAssoc_cons, if_pos rfl]
        · simp only [List.map_cons]
          rw [show (if (e1, e2).1 = k then (k, v) else (e1, e2)) = (e1, e2) from by
            simp [he]]
          rw [lookupAssoc_cons, if_neg he]
          apply ih
          rw [List.find?_cons_of_neg _ (by simp [he])] at h
          exact h
  · rw [if_neg h]
    revert h
    induction r with
    | nil =>
        intro _
        rw [List.nil_append, lookupAssoc_cons, if_pos rfl]
    | cons e r ih =>
        intro h
        obtain ⟨e1, e2⟩ := e
        by_cases he : e1 = k
        · exact absurd (by rw [List.find?_cons_of_pos _ (by simp [he])]; rfl) h
        · rw [List.cons_append, lookupAssoc_cons, if_neg he]
          apply ih
          intro h2
          apply h
          rw [List.find?_cons_of_neg _ (by simp [he])]
          exact h2

/-- A Python dictionary assignment leaves every other key unchanged. -/
theorem lookupAssoc_pySetItem_other (r : List (ColLabel × CellVal))
    (k k2 : ColLabel) (v : CellVal) (hne : k2 ≠ k) :
    lookupAssoc (pySetItem r k v) k2 = lookupAssoc r k2 := by
  unfold pySetItem
  by_cases h : (r.find? (fun e => decide (e.1 = k))).isSome = true
  · rw [if_pos h]
    clear h
    induction r with
    | nil => rfl
    | cons e r ih =>
        obtain ⟨e1, e2⟩ := e
        by_cases he : e1 = k
        · simp only [List.map_cons]
          rw [show (if (e1, e2).1 = k then (k, v) else (e1, e2)) = (k, v) from by
            simp [he]]
          rw [lookupAssoc_cons, if_neg (fun e3 => hne e3.symm),
            lookupAssoc_cons, if_neg (fun e3 => hne (he ▸ e3).symm)]
          exact ih
        · simp only [List.map_cons]
          rw [show (if (e1, e2).1 = k then (k, v) else (e1, e2)) = (e1, e2) from by
            simp [he]]
          rw [lookupAssoc_cons, lookupAssoc_cons]
          by_cases he2 : e1 = k2
          · simp only [if_pos he2]
          · simp only [if_neg he2]
            exact ih
  · rw [if_neg h]
    clear h
    induction r with
    | nil =>
        rw [List.nil_append, lookupAssoc_cons, if_neg (fun e3 => hne e3.symm)]
    | cons e r ih =>
        obtain ⟨e1, e2⟩ := e
        rw [List.cons_append, lookupAssoc_cons, lookupAssoc_cons]
        by_cases he2 : e1 = k2
        · simp only [if_pos he2]
        · simp only [if_neg he2]
          exact ih

/-- Mapping a fallible function that succeeds on every element succeeds,
preserving length and the per-index relation to the inputs. -/
theorem mapM_ok_exists {ε α β : Type} (f : α → Except ε β) :
    ∀ l : List α, (∀ a ∈ l, ∃ b, f a = .ok b) →
      ∃ bs, l.mapM f = .ok bs ∧ bs.length = l.length ∧
        ∀ (i : Nat) (a : α), l[i]? = some a → ∃ b, bs[i]? = some b ∧ f a = .ok b := by
  intro l
  induction l with
  | nil =>
      intro _
      refine ⟨[], by rfl, rfl, ?_⟩
      intro i a h
      simp at h
  | cons a l ih =>
      intro h
      obtain ⟨b, hb⟩ := h a (List.mem_cons_self a l)
      obtain ⟨bs, hbs, hlen, hidx⟩ := ih (fun x hx => h x (List.mem_cons_of_mem a hx))
      refine ⟨b :: bs, ?_, by simp [hlen], ?_⟩
      · rw [List.mapM_cons, hb, hbs]
        rfl
      · intro i x hx
        cases i with
        | zero =>
            simp only [List.getElem?_cons_zero, Option.some_inj] at hx
            subst hx
            exact ⟨b, by simp, hb⟩
        | succ n =>
            simp only [List.getElem?_cons_succ] at hx ⊢
            exact hidx n x hx

/-- Evaluation of one record conversion: with integral month, day and hour
cells the conversion succeeds and produces the record with the three 2D
keys assigned, in source order. -/
theorem convertRecord_eq (r : List (ColLabel × CellVal))
    (hm : intCellAt r (ColLabel.timeKey .month) = true)
    (hd : intCellAt r (ColLabel.timeKey .day) = true)
    (hh : intCellAt r (ColLabel.timeKey .hour) = true) :
    ∃ qm qd qh : ℚ,
      lookupAssoc r (ColLabel.timeKey .month) = some (CellVal.num qm) ∧
      lookupAssoc r (ColLabel.timeKey .day) = some (CellVal.num qd) ∧
      lookupAssoc r (ColLabel.timeKey .hour) = some (CellVal.num qh) ∧
      convertRecord r = .ok (pySetItem (pySetItem (pySetItem r
        (ColLabel.timeKey .month2d) (CellVal.str (format02d qm.num)))
        (ColLabel.timeKey .day2d) (CellVal.str (format02d qd.num)))
        (ColLabel.timeKey .hour2d) (CellVal.str (format02d qh.num))) := by
  unfold intCellAt at hm hd hh
  cases hlm : lookupAssoc r (ColLabel.timeKey .month) with
  | none => rw [hlm] at hm; simp at hm
  | some cvm =>
  cases cvm with
  | str s => rw [hlm] at hm; simp at hm
  | num qm =>
  cases hld : lookupAssoc r (ColLabel.timeKey .day) with
  | none => rw [hld] at hd; simp at hd
  | some cvd =>
  cases cvd with
  | str s => rw [hld] at hd; simp at hd
  | num qd =>
  cases hlh : lookupAssoc r (ColLabel.timeKey .hour) with
  | none => rw [hlh] at hh; simp at hh
  | some cvh =>
  cases cvh with
  | str s => rw [hlh] at hh; simp at hh
  | num qh =>
  rw [hlm] at hm
  rw [hld] at hd
  rw [hlh] at hh
  have hqm : qm.den = 1 := by simpa using hm
  have hqd : qd.den = 1 := by simpa using hd
  have hqh : qh.den = 1 := by simpa using hh
  refine ⟨qm, qd, qh, rfl, rfl, rfl, ?_⟩
  unfold convertRecord
  simp only [exceptOkBind,
    show pyGetItem r (ColLabel.timeKey .month) = Except.ok (CellVal.num qm) from by
      simp [pyGetItem, hlm],
    show formatCell02d (CellVal.num qm) = Except.ok (format02d qm.num) from by
      simp [formatCell02d, hqm],
    show pyGetItem (pySetItem r (ColLabel.timeKey .month2d)
        (CellVal.str (format02d qm.num))) (ColLabel.timeKey .day)
        = Except.ok (CellVal.num qd) from by
      simp [pyGetItem,
        lookupAssoc_pySetItem_other _ _ _ _
          (show ColLabel.timeKey .day ≠ ColLabel.timeKey .month2d from by decide),
        hld],
    show formatCell02d (CellVal.num qd) = Except.ok (format02d qd.num) from by
      simp [formatCell02d, hqd],
    show pyGetItem (pySetItem (pySetItem r (ColLabel.timeKey .month2d)
        (CellVal.str (format02d qm.num))) (ColLabel.timeKey .day2d)
        (CellVal.str (format02d qd.num))) (ColLabel.timeKey .hour)
        = Except.ok (CellVal.num qh) from by
      simp [pyGetItem,
        lookupAssoc_pySetItem_other _ _ _ _
          (show ColLabel.timeKey .hour ≠ ColLabel.timeKey .day2d from by decide),
        lookupAssoc_pySetItem_other _ _ _ _
          (show ColLabel.timeKey .hour ≠ ColLabel.timeKey .month2d from by decide),
        hlh],
    show formatCell02d (CellVal.num qh) = Except.ok (format02d qh.num) from by
      simp [formatCell02d, hqh]]

/-- Claim C10: for every block whose records carry (integral) month, day
and hour values, convert_block_to_dict returns exactly one record per
block row, in row order; each output record binds the three 2D keys to the
two-digit zero-padded renderings of its month, day and hour values, and
agrees with the input record on every other key. -/
theorem c10_convert_block (block : PDataFrame)
    (hint : ∀ r ∈ block.records,
      intCellAt r (ColLabel.timeKey .month) = true ∧
      intCellAt r (ColLabel.timeKey .day) = true ∧
      intCellAt r (ColLabel.timeKey .hour) = true) :
    ∃ recs, convertBlockToDict block = .ok recs ∧
      recs.length = block.records.length ∧
      ∀ (i : Nat) (r0 : List (ColLabel × CellVal)), block.records[i]? = some r0 →
        ∃ r1, recs[i]? = some r1 ∧
          (∀ k : ColLabel, k ≠ ColLabel.timeKey .month2d →
            k ≠ ColLabel.timeKey .day2d → k ≠ ColLabel.timeKey .hour2d →
            lookupAssoc r1 k = lookupAssoc r0 k) ∧
          (∀ q : ℚ, lookupAssoc r0 (ColLabel.timeKey .month) = some (CellVal.num q) →
            lookupAssoc r1 (ColLabel.timeKey .month2d)
              = some (CellVal.str (format02d q.num))) ∧
          (∀ q : ℚ, lookupAssoc r0 (ColLabel.timeKey .day) = some (CellVal.num q) →
            lookupAssoc r1 (ColLabel.timeKey .day2d)
              = some (CellVal.str (format02d q.num))) ∧
          (∀ q : ℚ, lookupAssoc r0 (ColLabel.timeKey .hour) = some (CellVal.num q) →
            lookupAssoc r1 (ColLabel.timeKey .hour2d)
              = some (CellVal.str (format02d q.num))) := by
  have hall : ∀ r ∈ block.records, ∃ r2, convertRecord r = .ok r2 := by
    intro r hr
    obtain ⟨qm, qd, qh, _, _, _, heq⟩ :=
      convertRecord_eq r (hint r hr).1 (hint r hr).2.1 (hint r hr).2.2
    exact ⟨_, heq⟩
  obtain ⟨recs, hmapM, hlen, hidx⟩ := mapM_ok_exists convertRecord block.records hall
  refine ⟨recs, hmapM, hlen, ?_⟩
  intro i r0 h0
  obtain ⟨r1, h1, hconv⟩ := hidx i r0 h0
  have hmem : r0 ∈ block.records := by
    have := List.getElem?_eq_some_iff.mp h0
    obtain ⟨hi, hget⟩ := this
    exact hget ▸ List.getElem_mem hi
  obtain ⟨qm, qd, qh, hlm, hld, hlh, heq⟩ :=
    convertRecord_eq r0 (hint r0 hmem).1 (hint r0 hmem).2.1 (hint r0 hmem).2.2
  rw [heq] at hconv
  injection hconv with hr1
  refine ⟨r1, h1, ?_, ?_, ?_, ?_⟩
  · intro k hk1 hk2 hk3
    rw [← hr1,
      lookupAssoc_pySetItem_other _ _ _ _ hk3,
      lookupAssoc_pySetItem_other _ _ _ _ hk2,
      lookupAssoc_pySetItem_other _ _ _ _ hk1]
  · intro q hq
    rw [hlm] at hq
    injection hq with hq
    injection hq with hq
    subst hq
    rw [← hr1,
      lookupAssoc_pySetItem_other _ _ _ _
        (show ColLabel.timeKey .month2d ≠ ColLabel.timeKey .hour2d from by decide),
      lookupAssoc_pySetItem_other _ _ _ _
        (show ColLabel.timeKey .month2d ≠ ColLabel.timeKey .day2d from by decide),
      lookupAssoc_pySetItem_self]
  · intro q hq
    rw [hld] at hq
    injection hq with hq
    injection hq with hq
    subst hq
    rw [← hr1,
      lookupAssoc_pySetItem_other _ _ _ _
        (show ColLabel.timeKey .day2d ≠ ColLabel.timeKey .hour2d from by decide),
      lookupAssoc_pySetItem_self]
  · intro q hq
    rw [hlh] at hq
    injection hq with hq
    injection hq with hq
    subst hq
    rw [← hr1, lookupAssoc_pySetItem_self]

/-- Witness for C10 at the concrete one-row test block. -/
theorem c10_convert_block_witness :
    ∃ recs, convertBlockToDict testBlock = .ok recs ∧
      recs.length = testBlock.records.length ∧
      ∀ (i : Nat) (r0 : List (ColLabel × CellVal)), testBlock.records[i]? = some r0 →
        ∃ r1, recs[i]? = some r1 ∧
          (∀ k : ColLabel, k ≠ ColLabel.timeKey .month2d →
            k ≠ ColLabel.timeKey .day2d → k ≠ ColLabel.timeKey .hour2d →
            lookupAssoc r1 k = lookupAssoc r0 k) ∧
          (∀ q : ℚ, lookupAssoc r0 (ColLabel.timeKey .month) = some (CellVal.num q) →
            lookupAssoc r1 (ColLabel.timeKey .month2d)
              = some (CellVal.str (format02d q.num))) ∧
          (∀ q : ℚ, lookupAssoc r0 (ColLabel.timeKey .day) = some (CellVal.num q) →
            lookupAssoc r1 (ColLabel.timeKey .day2d)
              = some (CellVal.str (format02d q.num))) ∧
          (∀ q : ℚ, lookupAssoc r0 (ColLabel.timeKey .hour) = some (CellVal.num q) →
            lookupAssoc r1 (ColLabel.timeKey .hour2d)
              = some (CellVal.str (format02d q.num))) :=
  c10_convert_block testBlock (by decide)

/-- Claim C2 (evaluation of the code at the failing input): __core_extraction
iterates the extracted-data dictionary directly, which in Python yields its
keys, and unpacking the label string cyclone into the two loop targets
raises ValueError before any metadata or data file is written and before
any path mapping is built, contrary to the claimed per-label persistence
and returned path mapping. -/
theorem c2_core_extraction_raises :
    coreExtraction testProcessing testCsvOptions
        (testPeriodObj, [("cyclone", testBlock)])
      = .error (PyErr.valueError "too many values to unpack (expected 2)") := rfl

/-- Claim C3 (evaluation of the code at the failing input): with the same
processing callback, merged blocks and save options, the worker-count-0
branch rebinds tmp_result on every iteration and applies dict() to the last
(period, mapping) tuple, raising ValueError when unpacking the inner
mapping, while the worker-count-1 branch applies dict() to the list of all
(period, mapping) pairs and returns the period-keyed mapping; the two
dispatch modes disagree on the same input. -/
theorem c3_worker_counts_disagree :
    extractDispatch testEmptyProcessing testCsvOptions testItems 0
      = .error (PyErr.valueError "not enough values to unpack (expected 2, got 0)") ∧
    extractDispatch testEmptyProcessing testCsvOptions testItems 1
      = .ok (PyObj.dict [(testPeriodObj, PyObj.dict [])], []) ∧
    extractDispatch testEmptyProcessing testCsvOptions testItems 0
      ≠ extractDispatch testEmptyProcessing testCsvOptions testItems 1 := by
  refine ⟨rfl, rfl, ?_⟩
  intro h
  have h2 : (Except.error
        (PyErr.valueError "not enough values to unpack (expected 2, got 0)")
        : Except PyErr (PyObj × List FileWrite))
      = .ok (PyObj.dict [(testPeriodObj, PyObj.dict [])], []) := h
  exact Except.noConfusion h2
